import Mathlib

/-!
# Verification of the chat relay core (`src/server.js`)

Shallow embedding of the connection / presence / delivery subsystem of the
chat server: the socket.io authentication gate (`io.use`), the presence map
(`online : Map<userId, socketId>`), the `private_message` handler, the
`disconnect` handler, and the authenticated history endpoint
(`GET /api/messages`).

Conventions of the embedding:
* JavaScript strings are Lean `String`s; timestamps (`createdAt`) and Mongo
  document ids are a single monotone logical clock `Nat` (`Message.create`
  assigns `createdAt: Date.now` defaults in insertion order).
* The JS `Map` used for `online` is an association list with exact
  `Map.set` / `Map.delete` / `Map.get` / `keys()` semantics (update in
  place, append for a fresh key).
* `socket.emit` / `io.to(id).emit` / `io.emit` become an explicit event
  trace: each handler returns the new server state together with the list
  of outbound events, in emission order.
* The fallible Mongo append (`Message.create`) is driven by an explicit
  oracle `persistOk : Bool`; a rejected promise aborts the async handler
  before any emit, which the embedding renders as "state unchanged, no
  events".
-/

/-- A verified identity as decoded from a JWT: `{ id, email, displayName }`
(see `createToken`). -/
structure Identity where
  id : String
  email : String
  displayName : String
deriving DecidableEq, Repr

/-- A credential presented at handshake time
(`socket.handshake.auth?.token || socket.handshake.query?.token`):
absent, present but rejected by `jwt.verify`, or valid and decoding to an
identity. -/
inductive Credential where
  | missing : Credential
  | invalid : Credential
  | valid (u : Identity) : Credential
deriving DecidableEq, Repr

/-- `jwt.verify(token, JWT_SECRET)`: yields the decoded identity on a valid
token and fails otherwise.  `Credential.missing` models the `!token` branch
that fails before `jwt.verify` is even called. -/
def verifyToken : Credential → Option Identity
  | .valid u => some u
  | _ => none

/-- One live socket.io connection: its socket id and the verified
`socket.user` bound by the `io.use` middleware. -/
structure SocketConn where
  socketId : String
  user : Identity
deriving DecidableEq, Repr

/-- A persisted chat message (the `Message` Mongo model).  `fromId` / `toId`
embed the schema's `from` / `to` fields (`from` is a Lean keyword). -/
structure Msg where
  id : Nat
  fromId : String
  toId : String
  text : String
  mediaUrl : Option String
  mediaType : Option String
  createdAt : Nat
deriving DecidableEq, Repr

/-- The client payload of a `private_message` event:
`{ to, text, mediaUrl, mediaType }` (`toId` embeds `to`, a Lean keyword).
`fromField` stands for a `from` property a client might smuggle into the
payload; the handler never reads it, which is exactly what the spoofing
claim is about. -/
structure Payload where
  toId : String
  text : Option String
  mediaUrl : Option String
  mediaType : Option String
  fromField : Option String
deriving DecidableEq, Repr

/-- An outbound event on the realtime channel, tagged with the socket id it
is pushed to: `message` (the `delivered` event of the spec, carrying the
persisted message) or `online_users` (the `presence` event, carrying the
snapshot of online identity ids). -/
inductive Event where
  | message (sid : String) (m : Msg) : Event
  | onlineUsers (sid : String) (ids : List String) : Event
deriving DecidableEq, Repr

/-- The JS `Map<String, String>` backing `online`. -/
abbrev OnlineMap := List (String × String)

/-- `Map.prototype.set`: replace the value in place if the key exists,
otherwise append the new entry. -/
def mapSet : OnlineMap → String → String → OnlineMap
  | [], k, v => [(k, v)]
  | (k1, v1) :: rest, k, v =>
    if k1 = k then (k1, v) :: rest else (k1, v1) :: mapSet rest k v

/-- `Map.prototype.delete`: remove the entry for the key. -/
def mapDelete : OnlineMap → String → OnlineMap
  | [], _ => []
  | (k1, v1) :: rest, k =>
    if k1 = k then mapDelete rest k else (k1, v1) :: mapDelete rest k

/-- `Map.prototype.get`. -/
def mapGet : OnlineMap → String → Option String
  | [], _ => none
  | (k1, v1) :: rest, k => if k1 = k then some v1 else mapGet rest k

/-- `Array.from(online.keys())`. -/
def mapKeys (m : OnlineMap) : List String := m.map (fun p => p.1)

/-- The mutable server state shared by all handlers: the set of live
(Active) sockets, the `online` presence map, the persisted messages in
append order, and the logical clock used for ids / `createdAt`. -/
structure ServerState where
  sockets : List SocketConn
  online : OnlineMap
  messages : List Msg
  nextStamp : Nat
deriving DecidableEq, Repr

/-- JS `x || null` on an optional string field: `null`/absent and the empty
string are falsy, any other string passes through. -/
def jsOrNull : Option String → Option String
  | none => none
  | some s => if s = "" then none else some s

/-- JS `payload.text || ''`. -/
def jsOrEmpty : Option String → String
  | none => ""
  | some s => s

/-- The connection path: the `io.use` credential gate followed by the
`io.on('connection')` handler.  On a missing or invalid credential the
middleware rejects the attempt (`next(new Error(...))`): no state mutation,
no events on the connection.  On success the socket becomes Active,
`online.set(user.id, socket.id)` runs, and `io.emit('online_users', ...)`
pushes the fresh snapshot to every live socket (the new one included). -/
def connect (st : ServerState) (sid : String) (cred : Credential) :
    ServerState × List Event :=
  match verifyToken cred with
  | none => (st, [])
  | some u =>
    let sockets := st.sockets ++ [⟨sid, u⟩]
    let online := mapSet st.online u.id sid
    (⟨sockets, online, st.messages, st.nextStamp⟩,
      sockets.map (fun s => Event.onlineUsers s.socketId (mapKeys online)))

/-- The `socket.on('disconnect')` handler: the socket leaves the live set,
`online.delete(user.id)` runs, and the fresh snapshot is broadcast to the
remaining live sockets. -/
def disconnect (st : ServerState) (sid : String) :
    ServerState × List Event :=
  match st.sockets.find? (fun s => s.socketId = sid) with
  | none => (st, [])
  | some conn =>
    let sockets := st.sockets.filter (fun s => !(s.socketId = sid))
    let online := mapDelete st.online conn.user.id
    (⟨sockets, online, st.messages, st.nextStamp⟩,
      sockets.map (fun s => Event.onlineUsers s.socketId (mapKeys online)))

/-- The `socket.on('private_message')` handler.  `persistOk` is the
outcome of the awaited `Message.create`: when it rejects, the async handler
aborts before any emit.  When it resolves, the enriched message is emitted
to the sender's own socket, then to `online.get(String(to))` if that lookup
hits. -/
def privateMessage (st : ServerState) (sid : String) (payload : Payload)
    (persistOk : Bool) : ServerState × List Event :=
  match st.sockets.find? (fun s => s.socketId = sid) with
  | none => (st, [])
  | some conn =>
    if persistOk then
      let m : Msg :=
        ⟨st.nextStamp, conn.user.id, payload.toId, jsOrEmpty payload.text,
          jsOrNull payload.mediaUrl, jsOrNull payload.mediaType, st.nextStamp⟩
      let evs :=
        [Event.message sid m] ++
          (match mapGet st.online payload.toId with
           | some recSid => [Event.message recSid m]
           | none => [])
      (⟨st.sockets, st.online, st.messages ++ [m], st.nextStamp + 1⟩, evs)
    else
      (st, [])

/-- Errors of the HTTP history endpoint: 401 `no token`, 401
`invalid token`, 400 `with param required`. -/
inductive ApiError where
  | noToken : ApiError
  | invalidToken : ApiError
  | withRequired : ApiError
deriving DecidableEq, Repr

/-- `$or: [\x7bfrom: me, to: other\x7d, \x7bfrom: other, to: me\x7d]`. -/
def msgBetween (me other : String) (m : Msg) : Bool :=
  (m.fromId = me && m.toId = other) || (m.fromId = other && m.toId = me)

/-- The ordering used by `.sort(createdAt)`. -/
def msgLe (a b : Msg) : Prop := a.createdAt ≤ b.createdAt

instance : DecidableRel msgLe := fun a b => Nat.decLe a.createdAt b.createdAt

instance : IsTotal Msg msgLe := ⟨fun a b => Nat.le_total a.createdAt b.createdAt⟩

instance : IsTrans Msg msgLe := ⟨fun _ _ _ h1 h2 => Nat.le_trans h1 h2⟩

/-- `GET /api/messages`: `authMiddleware` verifies the bearer credential on
this very call, the `with` query parameter is required, and the result is
the messages between the caller and `with`, both directions, sorted by
`createdAt` ascending and capped by `.limit(100)`. -/
def apiMessages (st : ServerState) (cred : Credential) (withParam : Option String) :
    Except ApiError (List Msg) :=
  match cred with
  | .missing => .error .noToken
  | .invalid => .error .invalidToken
  | .valid u =>
    match withParam with
    | none => .error .withRequired
    | some other =>
      .ok ((((st.messages.filter (msgBetween u.id other)).insertionSort msgLe)).take 100)

/-- `isOnline` in the spec's vocabulary: the identity has an entry in the
presence map. -/
def isOnline (st : ServerState) (identityId : String) : Bool :=
  (mapGet st.online identityId).isSome

/-- The live sessions an identity currently owns (the spec's
`sessionsFor`), read off the socket set rather than the presence map. -/
def sessionsFor (st : ServerState) (identityId : String) : List SocketConn :=
  st.sockets.filter (fun s => s.user.id = identityId)

/-- Number of `message` (`delivered`) events in a trace pushed to a given
socket id. -/
def msgEventsTo (sid : String) (evs : List Event) : Nat :=
  (evs.filter (fun e =>
    match e with
    | .message s _ => s = sid
    | _ => false)).length

/-- Number of `message` events in a trace pushed to a given socket id whose
payload has the given `from`, `to` and `text` fields. -/
def matchingMsgEventsTo (sid fromId toId text : String) (evs : List Event) : Nat :=
  (evs.filter (fun e =>
    match e with
    | .message s m => s = sid && m.fromId = fromId && m.toId = toId && m.text = text
    | _ => false)).length

/-- The message record the `private_message` handler builds from the
authenticated sender id, the client payload and the current logical
clock. -/
def routedMsg (st : ServerState) (senderId : String) (payload : Payload) : Msg :=
  ⟨st.nextStamp, senderId, payload.toId, jsOrEmpty payload.text,
    jsOrNull payload.mediaUrl, jsOrNull payload.mediaType, st.nextStamp⟩

/-- Whether a history call succeeds and its result contains a given
message. -/
def historyHas (st : ServerState) (cred : Credential) (w : Option String)
    (m : Msg) : Bool :=
  match apiMessages st cred w with
  | .ok l => l.any (fun x => x = m)
  | .error _ => false

/-! ## Concrete fixtures used by witnesses and counterexamples -/

/-- The empty server state. -/
def st0 : ServerState := ⟨[], [], [], 0⟩

def uA : Identity := ⟨"a", "a@example.com", "Alice"⟩

def uB : Identity := ⟨"b", "b@example.com", "Bob"⟩

/-- `uA` connected on socket `sa` and registered in presence. -/
def stA : ServerState := ⟨[⟨"sa", uA⟩], [("a", "sa")], [], 0⟩

/-- `uA` and `uB` both connected and registered in presence. -/
def stAB : ServerState :=
  ⟨[⟨"sa", uA⟩, ⟨"sb", uB⟩], [("a", "sa"), ("b", "sb")], [], 0⟩

/-- 100 already-persisted messages from `uA` to `uB`. -/
def manyMsgs : List Msg :=
  (List.range 100).map (fun i => ⟨i, "a", "b", "x", none, none, i⟩)

/-- `uA` connected alone, with 100 messages from `uA` to `uB` already in
the store; `uB` is offline. -/
def stMany : ServerState := ⟨[⟨"sa", uA⟩], [("a", "sa")], manyMsgs, 100⟩

def payloadHi : Payload := ⟨"b", some "hi", none, none, none⟩

/-- A send-intent with neither `text` nor `mediaUrl`. -/
def emptyPayload : Payload := ⟨"b", none, none, none, none⟩

/-- A self-directed send-intent of `uA`. -/
def selfPayload : Payload := ⟨"a", some "hi", none, none, none⟩

/-! ## Helper lemmas about the JS `Map` model -/

theorem mapGet_mapSet_self (m : OnlineMap) (k v : String) :
    mapGet (mapSet m k v) k = some v := by
  induction m with
  | nil => simp [mapSet, mapGet]
  | cons p rest ih =>
    obtain ⟨k1, v1⟩ := p
    by_cases h : k1 = k
    · simp [mapSet, mapGet, h]
    · simp [mapSet, mapGet, h, ih]

theorem mapGet_mapDelete_self (m : OnlineMap) (k : String) :
    mapGet (mapDelete m k) k = none := by
  induction m with
  | nil => simp [mapDelete, mapGet]
  | cons p rest ih =>
    obtain ⟨k1, v1⟩ := p
    by_cases h : k1 = k
    · simp [mapDelete, h, ih]
    · simp [mapDelete, mapGet, h, ih]

/-! ## Claims -/

/-- C5: a connection attempt whose credential is missing or invalid is
rejected by the `io.use` gate before any Presence Table mutation: the
server state (sockets, presence map, store) is unchanged — so the identity
is never registered and never appears in the online snapshot — and no
`presence` or `delivered` event is emitted on any connection. -/
theorem connect_rejects_bad_credential (st : ServerState) (sid : String)
    (cred : Credential) (h : verifyToken cred = none) :
    connect st sid cred = (st, []) := by
  simp [connect, h]

theorem connect_rejects_bad_credential_witness :
    connect stA "sx" Credential.missing = (stA, []) :=
  connect_rejects_bad_credential stA "sx" Credential.missing rfl

/-- C2 (evaluating the code at the failing input): two connects for the
same identity `uA` on sockets `s1` and `s2`, then a disconnect of `s1`
only.  The presence map deletes the identity outright, so `isOnline` is
`false` even though session `s2` is still open — the code loses the
"online iff at least one open session" invariant. -/
theorem isOnline_false_with_open_session :
    isOnline
      ((disconnect
        ((connect ((connect st0 "s1" (.valid uA)).1) "s2" (.valid uA)).1)
        "s1").1) "a" = false ∧
    sessionsFor
      ((disconnect
        ((connect ((connect st0 "s1" (.valid uA)).1) "s2" (.valid uA)).1)
        "s1").1) "a" = [⟨"s2", uA⟩] := by
  decide

/-- C7: the presence map stores exactly one connection handle per identity:
a second concurrent connection from the same identity overwrites the first
session's handle (`online.get` then answers with the second socket), the
first session stays registered in the live socket set under the stale
entry, and the first session's eventual disconnect removes the identity
from presence even though the newer session is still open. -/
theorem presence_overwrite_orphans_session (st : ServerState) (u : Identity)
    (s1 s2 : String) (hne : s1 ≠ s2)
    (hfresh : ∀ s ∈ st.sockets, s.socketId ≠ s1) :
    mapGet ((connect ((connect st s1 (.valid u)).1) s2 (.valid u)).1).online u.id
      = some s2 ∧
    (⟨s1, u⟩ : SocketConn) ∈
      ((connect ((connect st s1 (.valid u)).1) s2 (.valid u)).1).sockets ∧
    isOnline
      ((disconnect ((connect ((connect st s1 (.valid u)).1) s2 (.valid u)).1)
        s1).1) u.id = false ∧
    (⟨s2, u⟩ : SocketConn) ∈
      ((disconnect ((connect ((connect st s1 (.valid u)).1) s2 (.valid u)).1)
        s1).1).sockets := by
  have h1 : st.sockets.find? (fun s => s.socketId = s1) = none := by
    rw [List.find?_eq_none]
    intro x hx
    simpa using hfresh x hx
  refine ⟨?_, ?_, ?_, ?_⟩
  · simp [connect, verifyToken, mapGet_mapSet_self]
  · simp [connect, verifyToken]
  · simp [connect, verifyToken, disconnect, h1, isOnline, mapGet_mapDelete_self]
  · simp [connect, verifyToken, disconnect, h1, Ne.symm hne]

theorem presence_overwrite_orphans_session_witness :
    isOnline
      ((disconnect ((connect ((connect st0 "s1" (.valid uB)).1) "s2"
        (.valid uB)).1) "s1").1) uB.id = false :=
  (presence_overwrite_orphans_session st0 uB "s1" "s2" (by decide)
    (by intro s hs; simp [st0] at hs)).2.2.1

/-- C10: on every successful connect and on every disconnect of a live
socket, the handler pushes the post-mutation online snapshot
(`Array.from(online.keys())`) to every currently Active session: exactly
one `online_users` event per live socket, and every emitted event is such
a full-snapshot event — no diffing, no per-recipient filtering. -/
theorem presence_broadcast_to_all :
    (∀ (st : ServerState) (sid : String) (u : Identity),
      ((connect st sid (.valid u)).2).length
          = ((connect st sid (.valid u)).1).sockets.length ∧
      (∀ s ∈ ((connect st sid (.valid u)).1).sockets,
        Event.onlineUsers s.socketId
            (mapKeys ((connect st sid (.valid u)).1).online)
          ∈ (connect st sid (.valid u)).2) ∧
      (∀ e ∈ (connect st sid (.valid u)).2,
        ∃ s ∈ ((connect st sid (.valid u)).1).sockets,
          e = Event.onlineUsers s.socketId
            (mapKeys ((connect st sid (.valid u)).1).online))) ∧
    (∀ (st : ServerState) (sid : String) (conn : SocketConn),
      st.sockets.find? (fun s => s.socketId = sid) = some conn →
      ((disconnect st sid).2).length = ((disconnect st sid).1).sockets.length ∧
      (∀ s ∈ ((disconnect st sid).1).sockets,
        Event.onlineUsers s.socketId (mapKeys ((disconnect st sid).1).online)
          ∈ (disconnect st sid).2) ∧
      (∀ e ∈ (disconnect st sid).2,
        ∃ s ∈ ((disconnect st sid).1).sockets,
          e = Event.onlineUsers s.socketId
            (mapKeys ((disconnect st sid).1).online))) := by
  have key : ∀ (l : List SocketConn) (snap : List String),
      (l.map (fun s => Event.onlineUsers s.socketId snap)).length = l.length ∧
      (∀ s ∈ l, Event.onlineUsers s.socketId snap
        ∈ l.map (fun s => Event.onlineUsers s.socketId snap)) ∧
      (∀ e ∈ l.map (fun s => Event.onlineUsers s.socketId snap),
        ∃ s ∈ l, e = Event.onlineUsers s.socketId snap) := by
    intro l snap
    refine ⟨List.length_map _ _, fun s hs => List.mem_map_of_mem _ hs,
      fun e he => ?_⟩
    obtain ⟨s, hs, rfl⟩ := List.mem_map.mp he
    exact ⟨s, hs, rfl⟩
  constructor
  · intro st sid u
    exact key ((connect st sid (.valid u)).1).sockets
      (mapKeys ((connect st sid (.valid u)).1).online)
  · intro st sid conn h
    have hd : disconnect st sid =
        (⟨st.sockets.filter (fun s => !(s.socketId = sid)),
            mapDelete st.online conn.user.id, st.messages, st.nextStamp⟩,
          (st.sockets.filter (fun s => !(s.socketId = sid))).map
            (fun s => Event.onlineUsers s.socketId
              (mapKeys (mapDelete st.online conn.user.id)))) := by
      simp [disconnect, h]
    rw [hd]
    exact key _ _

theorem presence_broadcast_to_all_witness :
    ((disconnect stAB "sa").2).length = ((disconnect stAB "sa").1).sockets.length :=
  (presence_broadcast_to_all.2 stAB "sa" ⟨"sa", uA⟩ (by decide)).1

/-- C9: for every send-intent processed for a connected session, every
newly persisted record carries `from = socket.user.id`, the identity bound
at verification time; and the outcome of the handler is entirely
independent of any client-supplied `from` field in the payload. -/
theorem persisted_from_is_session_identity (st : ServerState) (sid : String)
    (conn : SocketConn) (payload : Payload) (persistOk : Bool)
    (hconn : st.sockets.find? (fun s => s.socketId = sid) = some conn) :
    (((privateMessage st sid payload persistOk).1.messages.drop
        st.messages.length).all (fun m => m.fromId = conn.user.id) = true) ∧
    (∀ f1 f2 : Option String,
      privateMessage st sid { payload with fromField := f1 } persistOk =
        privateMessage st sid { payload with fromField := f2 } persistOk) := by
  constructor
  · cases persistOk with
    | false => simp [privateMessage, hconn, List.drop_length]
    | true => simp [privateMessage, hconn, List.drop_left]
  · intro f1 f2
    simp [privateMessage, hconn]

theorem persisted_from_is_session_identity_witness :
    ((privateMessage stAB "sa" payloadHi true).1.messages.drop
      stAB.messages.length).all (fun m => m.fromId = uA.id) = true :=
  (persisted_from_is_session_identity stAB "sa" ⟨"sa", uA⟩ payloadHi true
    (by decide)).1

/-- C4: the Message Store append gates all delivery.  If `Message.create`
rejects, the handler is exactly the identity: no state change (so the
sender's session is still Active, the socket set untouched) and no event
emitted to anyone.  And in the successful run, every `message` event of
the trace carries a message that is in the post-state store: delivery
never precedes durability. -/
theorem persistence_gates_delivery (st : ServerState) (sid : String)
    (payload : Payload) :
    privateMessage st sid payload false = (st, []) ∧
    (∀ e ∈ (privateMessage st sid payload true).2, ∀ rid m,
      e = Event.message rid m →
        m ∈ (privateMessage st sid payload true).1.messages) := by
  constructor
  · cases hfind : st.sockets.find? (fun s => s.socketId = sid) with
    | none => simp [privateMessage, hfind]
    | some conn => simp [privateMessage, hfind]
  · intro e he rid m hm
    cases hfind : st.sockets.find? (fun s => s.socketId = sid) with
    | none => simp [privateMessage, hfind] at he
    | some conn =>
      simp only [privateMessage, hfind] at he ⊢
      cases hrec : mapGet st.online payload.toId with
      | none =>
        rw [hrec] at he
        simp at he
        subst he
        simp at hm
        simp [hm]
      | some recSid =>
        rw [hrec] at he
        simp at he
        rcases he with he | he <;>
          · subst he
            simp at hm
            simp [hm]

theorem persistence_gates_delivery_witness :
    privateMessage stAB "sa" payloadHi false = (stAB, []) ∧
    routedMsg stAB "a" payloadHi
      ∈ (privateMessage stAB "sa" payloadHi true).1.messages :=
  ⟨(persistence_gates_delivery stAB "sa" payloadHi).1,
    (persistence_gates_delivery stAB "sa" payloadHi).2
      (Event.message "sa" (routedMsg stAB "a" payloadHi)) (by decide)
      "sa" (routedMsg stAB "a" payloadHi) rfl⟩

/-- C3 (counterexample): the handler performs no validation at all.  A
send-intent carrying neither `text` nor `mediaUrl`, sent by the connected
`uA` to `uB`, is not rejected: a record with `text = ''` and no media is
appended to the store and a `delivered` event is pushed to both `uA` and
`uB`. -/
theorem empty_intent_not_rejected :
    (privateMessage stAB "sa" emptyPayload true).1.messages
        = [⟨0, "a", "b", "", none, none, 0⟩] ∧
    msgEventsTo "sa" (privateMessage stAB "sa" emptyPayload true).2 = 1 ∧
    msgEventsTo "sb" (privateMessage stAB "sa" emptyPayload true).2 = 1 := by
  decide

/-- C3 (amended): a send-intent with neither `text` nor `mediaUrl` is
accepted like any other: the store gains exactly one record with empty
text and null media, the socket set (hence the sender's Active session) is
untouched, and the sender receives at least its self-echo `delivered`
event. -/
theorem empty_intent_accepted (st : ServerState) (sid : String)
    (conn : SocketConn) (payload : Payload)
    (hconn : st.sockets.find? (fun s => s.socketId = sid) = some conn)
    (htext : payload.text = none) (hmedia : payload.mediaUrl = none) :
    (privateMessage st sid payload true).1.messages
        = st.messages ++ [routedMsg st conn.user.id payload] ∧
    (routedMsg st conn.user.id payload).text = "" ∧
    (routedMsg st conn.user.id payload).mediaUrl = none ∧
    (privateMessage st sid payload true).1.sockets = st.sockets ∧
    1 ≤ msgEventsTo sid (privateMessage st sid payload true).2 := by
  refine ⟨by simp [privateMessage, hconn, routedMsg], ?_, ?_,
    by simp [privateMessage, hconn], ?_⟩
  · simp [routedMsg, htext, jsOrEmpty]
  · simp [routedMsg, hmedia, jsOrNull]
  · cases hrec : mapGet st.online payload.toId with
    | none => simp [privateMessage, hconn, hrec, msgEventsTo]
    | some recSid => simp [privateMessage, hconn, hrec, msgEventsTo]

theorem empty_intent_accepted_witness :
    (privateMessage stAB "sa" emptyPayload true).1.messages
      = stAB.messages ++ [routedMsg stAB "a" emptyPayload] :=
  (empty_intent_accepted stAB "sa" ⟨"sa", uA⟩ emptyPayload (by decide) rfl
    rfl).1

/-- C6 (counterexample): self-messaging breaks the exactly-once echo.
With `uA` connected alone on socket `sa` and registered in presence, a
send-intent addressed to `uA` itself makes `socket.emit` fire once and
`io.to(online.get('a')).emit` fire once more at the very same socket: the
sender's connection receives the message twice, not exactly once. -/
theorem self_message_double_echo :
    msgEventsTo "sa" (privateMessage stA "sa" selfPayload true).2 = 2 ∧
    ¬ msgEventsTo "sa" (privateMessage stA "sa" selfPayload true).2 = 1 := by
  decide

/-- C6 (amended): for every accepted send-intent of a connected session,
the sender's socket receives the enriched message at least once, and
exactly once whenever the presence entry for the recipient id is not the
sender's own socket (in particular whenever the recipient is offline or is
a different connection); when the recipient id resolves to the sender's
own socket — self-messaging with the sender's handle registered — the
sender receives it exactly twice. -/
theorem sender_echo_count (st : ServerState) (sid : String)
    (conn : SocketConn) (payload : Payload)
    (hconn : st.sockets.find? (fun s => s.socketId = sid) = some conn) :
    1 ≤ msgEventsTo sid (privateMessage st sid payload true).2 ∧
    (mapGet st.online payload.toId ≠ some sid →
      msgEventsTo sid (privateMessage st sid payload true).2 = 1) ∧
    (mapGet st.online payload.toId = some sid →
      msgEventsTo sid (privateMessage st sid payload true).2 = 2) := by
  cases hrec : mapGet st.online payload.toId with
  | none =>
    refine ⟨?_, fun _ => ?_, fun h => by simp at h⟩ <;>
      simp [privateMessage, hconn, hrec, msgEventsTo]
  | some recSid =>
    by_cases hr : recSid = sid
    · subst hr
      refine ⟨?_, fun h => absurd rfl h, fun _ => ?_⟩ <;>
        simp [privateMessage, hconn, hrec, msgEventsTo]
    · refine ⟨?_, fun _ => ?_, fun h => ?_⟩
      · simp [privateMessage, hconn, hrec, msgEventsTo]
      · simp [privateMessage, hconn, hrec, msgEventsTo, hr]
      · exact absurd (Option.some.inj h) hr

theorem sender_echo_count_witness :
    msgEventsTo "sa" (privateMessage stAB "sa" payloadHi true).2 = 1 :=
  (sender_echo_count stAB "sa" ⟨"sa", uA⟩ payloadHi (by decide)).2.1
    (by decide)

/-- C1 (counterexample): the history query is capped at the **oldest** 100
messages (`.sort(createdAt).limit(100)`), so the "subsequent history query
returns the persisted message" clause fails once the pair already has 100
persisted messages.  Here `uB` is offline, `uA` sends one more message to
`uB` on top of 100 existing ones: the echo is delivered and the message is
persisted, but the history query for the pair does not return it. -/
theorem history_cap_drops_new_message :
    msgEventsTo "sa" (privateMessage stMany "sa" payloadHi true).2 = 1 ∧
    (privateMessage stMany "sa" payloadHi true).1.messages.any
        (fun m => m = routedMsg stMany "a" payloadHi) = true ∧
    historyHas (privateMessage stMany "sa" payloadHi true).1 (.valid uA)
        (some "b") (routedMsg stMany "a" payloadHi) = false := by
  decide

/-- C1 (amended): for every accepted send-intent from a connected sender
`a` on socket `sidA`: if the recipient id is registered in presence on a
distinct socket `sidB`, the trace is exactly one `delivered` event to
`sidA` and one to `sidB`, both carrying the persisted message, and the
store gains exactly that one record; if the recipient is offline the
sender still gets its single self-echo, no event is pushed to anyone
else, and — provided the pair had at most 99 persisted messages before —
a subsequent history query for the pair returns the persisted message
(the query is capped at the 100 oldest).  In both cases the persisted
record's `from`, `to` and `text` fields match the intent. -/
theorem route_delivery_and_history (st : ServerState) (sidA : String)
    (a : Identity) (payload : Payload)
    (hconn : st.sockets.find? (fun s => s.socketId = sidA) = some ⟨sidA, a⟩) :
    (∀ sidB, mapGet st.online payload.toId = some sidB → sidB ≠ sidA →
      (privateMessage st sidA payload true).2 =
          [Event.message sidA (routedMsg st a.id payload),
            Event.message sidB (routedMsg st a.id payload)] ∧
      msgEventsTo sidA (privateMessage st sidA payload true).2 = 1 ∧
      msgEventsTo sidB (privateMessage st sidA payload true).2 = 1 ∧
      (privateMessage st sidA payload true).1.messages
          = st.messages ++ [routedMsg st a.id payload]) ∧
    (mapGet st.online payload.toId = none →
      (privateMessage st sidA payload true).2 =
          [Event.message sidA (routedMsg st a.id payload)] ∧
      (privateMessage st sidA payload true).1.messages
          = st.messages ++ [routedMsg st a.id payload] ∧
      ((st.messages.filter (msgBetween a.id payload.toId)).length ≤ 99 →
        ∃ l, apiMessages (privateMessage st sidA payload true).1 (.valid a)
            (some payload.toId) = .ok l ∧ routedMsg st a.id payload ∈ l)) ∧
    ((routedMsg st a.id payload).fromId = a.id ∧
      (routedMsg st a.id payload).toId = payload.toId ∧
      (routedMsg st a.id payload).text = jsOrEmpty payload.text) := by
  have hmsgs : (privateMessage st sidA payload true).1.messages
      = st.messages ++ [routedMsg st a.id payload] := by
    simp [privateMessage, hconn, routedMsg]
  refine ⟨?_, ?_, by simp [routedMsg]⟩
  · intro sidB hrec hne
    refine ⟨?_, ?_, ?_, hmsgs⟩
    · simp [privateMessage, hconn, hrec, routedMsg]
    · simp [privateMessage, hconn, hrec, msgEventsTo, hne]
    · simp [privateMessage, hconn, hrec, msgEventsTo, Ne.symm hne]
  · intro hrec
    refine ⟨by simp [privateMessage, hconn, hrec, routedMsg], hmsgs, ?_⟩
    intro hlen
    refine ⟨(((privateMessage st sidA payload true).1.messages.filter
        (msgBetween a.id payload.toId)).insertionSort msgLe).take 100,
      rfl, ?_⟩
    rw [hmsgs, List.filter_append]
    have hm : msgBetween a.id payload.toId (routedMsg st a.id payload)
        = true := by
      simp [msgBetween, routedMsg]
    have hfl : List.filter (msgBetween a.id payload.toId)
        [routedMsg st a.id payload] = [routedMsg st a.id payload] := by
      simp [hm]
    rw [hfl]
    have hsortlen : (((st.messages.filter (msgBetween a.id payload.toId))
        ++ [routedMsg st a.id payload]).insertionSort msgLe).length ≤ 100 := by
      rw [List.length_insertionSort, List.length_append]
      simp
      omega
    rw [List.take_of_length_le hsortlen, List.mem_insertionSort]
    exact List.mem_append_right _ (List.mem_singleton_self _)

theorem route_delivery_and_history_witness :
    (privateMessage stAB "sa" payloadHi true).2 =
        [Event.message "sa" (routedMsg stAB "a" payloadHi),
          Event.message "sb" (routedMsg stAB "a" payloadHi)] ∧
    ∃ l, apiMessages (privateMessage stA "sa" payloadHi true).1 (.valid uA)
        (some "b") = .ok l ∧ routedMsg stA "a" payloadHi ∈ l :=
  ⟨((route_delivery_and_history stAB "sa" uA payloadHi (by decide)).1 "sb"
      (by decide) (by decide)).1,
    ((route_delivery_and_history stA "sa" uA payloadHi (by decide)).2.1
      (by decide)).2.2 (by decide)⟩

/-- C8: the history endpoint verifies the presented credential on the very
call (missing credential → `no token`, invalid → `invalid token`, with no
state carried over from connection establishment), and for an
authenticated caller returns messages of the caller/other pair in both
directions only, sorted oldest first by `createdAt`, capped at 100
results; below the cap the returned list is complete for the pair. -/
theorem api_messages_contract (st : ServerState) (u : Identity)
    (other : String) :
    (∃ l, apiMessages st (.valid u) (some other) = .ok l ∧
      l.length ≤ 100 ∧
      List.Sorted msgLe l ∧
      (∀ m ∈ l, msgBetween u.id other m = true) ∧
      ((st.messages.filter (msgBetween u.id other)).length ≤ 100 →
        ∀ m ∈ st.messages, msgBetween u.id other m = true → m ∈ l)) ∧
    (∀ w, apiMessages st .missing w = .error .noToken ∧
      apiMessages st .invalid w = .error .invalidToken) := by
  refine ⟨⟨((st.messages.filter (msgBetween u.id other)).insertionSort
      msgLe).take 100, rfl, List.length_take_le _ _, ?_, ?_, ?_⟩,
    fun w => ⟨rfl, rfl⟩⟩
  · exact List.Pairwise.sublist (List.take_sublist _ _)
      (List.sorted_insertionSort msgLe _)
  · intro m hm
    have h1 : m ∈ (st.messages.filter (msgBetween u.id other)).insertionSort
        msgLe := List.mem_of_mem_take hm
    exact List.of_mem_filter ((List.mem_insertionSort msgLe).mp h1)
  · intro hlen m hm hp
    have h1 : m ∈ st.messages.filter (msgBetween u.id other) :=
      List.mem_filter.mpr ⟨hm, hp⟩
    have h2 : ((st.messages.filter (msgBetween u.id other)).insertionSort
        msgLe).length ≤ 100 := by
      rw [List.length_insertionSort]
      exact hlen
    rw [List.take_of_length_le h2]
    exact (List.mem_insertionSort msgLe).mpr h1

theorem api_messages_contract_witness :
    apiMessages stMany .missing (some "b") = .error .noToken ∧
    ∃ l, apiMessages stMany (.valid uA) (some "b") = .ok l ∧ l.length ≤ 100 :=
  ⟨((api_messages_contract stMany uA "b").2 (some "b")).1,
    ((api_messages_contract stMany uA "b").1).elim
      (fun l hl => ⟨l, hl.1, hl.2.1⟩)⟩
